import Mathlib

/-!
Shallow embedding of `scripts/generate_manifest.py` (AirDB update-manifest
generator) and proofs about the claims of its specification.

Modelling conventions:
* A file's byte content is a `List Nat`; its base name is a `String`.
* The bundle directory is a `Dir`: an existence flag plus the list of files
  in the tree, in the order `Path.glob` enumerates them.
* Every glob pattern in the source has the shape `**/NAME` where `NAME` is a
  literal file name (the interpolated version string is taken to contain no
  glob metacharacters), so `bundle_dir.glob(pattern)` is modelled as
  filtering the tree's files by base-name equality with `NAME`.
* `hashlib.sha256` is modelled by an arbitrary digest function
  `H : List Nat → String` applied to the concatenation of all bytes fed to
  `update`; the chunked reading loop of `calculate_sha256` is embedded
  explicitly.
* Python dicts with string keys are association lists; assignment replaces
  the value in place or appends a new binding.
* `datetime.utcnow().strftime("%Y-%m-%d")` is an explicit `today` argument.
* `main` (argparse + I/O) is `mainModel`: absent required `--version` is the
  argparse usage error (non-zero exit, no file written), modelled as
  `Except.error`; otherwise the generated manifest is returned as
  `Except.ok`.
-/

namespace AirDB

/-- One platform artifact entry of the manifest (`artifacts[platform]`). -/
structure ArtifactRecord where
  url : String
  sha256 : String
  size : Nat
  filename : String
deriving Repr, DecidableEq

/-- A file in the bundle tree: base name and byte content. -/
structure File where
  name : String
  content : List Nat
deriving Repr, DecidableEq

/-- A bundle directory: whether it exists, and its files in glob order. -/
structure Dir where
  dirExists : Bool
  files : List File
deriving Repr, DecidableEq

/-- Python dict with string keys, as an association list. -/
abbrev Dict := List (String × ArtifactRecord)

/-- Python dict assignment `d[k] = v`: replace in place, else append. -/
def dictInsert (d : Dict) (k : String) (v : ArtifactRecord) : Dict :=
  match d with
  | [] => [(k, v)]
  | (k', v') :: rest => if k' = k then (k, v) :: rest else (k', v') :: dictInsert rest k v

/-- The chunked read loop of `calculate_sha256`:
`for chunk in iter(lambda: f.read(chunkSize), b""): ...`.
`f.read(n)` returns the next `min(n, remaining)` bytes, and `f.read(0)`
returns `b""` (which is the loop's stop sentinel).  The loop consumes at
least one byte per iteration when `chunkSize > 0`, so the file's length is a
sufficient iteration bound; `fuel` makes that bound explicit. -/
def readIterAux (chunkSize : Nat) : Nat → List Nat → List (List Nat)
  | _, [] => []
  | 0, _ :: _ => []
  | fuel + 1, b :: rest =>
    if chunkSize = 0 then []
    else (b :: rest).take chunkSize :: readIterAux chunkSize fuel ((b :: rest).drop chunkSize)

/-- The sequence of chunks `f.read(chunkSize)` yields for a file holding
`content`. -/
def readIter (chunkSize : Nat) (content : List Nat) : List (List Nat) :=
  readIterAux chunkSize content.length content

/-- `calculate_sha256` with the chunk size as a parameter: the hash object
absorbs each chunk in order (`sha256_hash.update(chunk)`), and `hexdigest`
is the digest `H` of all absorbed bytes. -/
def calculate_sha256_chunked (H : List Nat → String) (chunkSize : Nat)
    (content : List Nat) : String :=
  H ((readIter chunkSize content).foldl (fun acc chunk => acc ++ chunk) [])

/-- `calculate_sha256(filepath)`: the source reads in chunks of 4096 bytes. -/
def calculate_sha256 (H : List Nat → String) (content : List Nat) : String :=
  calculate_sha256_chunked H 4096 content

/-- Index of the last `'.'` in a character list (`str.rfind('.')`). -/
def rfindDot : List Char → Option Nat
  | [] => none
  | c :: cs =>
    match rfindDot cs with
    | some i => some (i + 1)
    | none => if c = '.' then some 0 else none

/-- `PurePath.suffix` on a base name, as character lists: the part from the
last dot, empty unless that dot is strictly inside the name. -/
def pySuffixAux (cs : List Char) : List Char :=
  match rfindDot cs with
  | some i => if 0 < i ∧ i < cs.length - 1 then cs.drop i else []
  | none => []

/-- `file.suffix` of `pathlib`. -/
def pySuffix (name : String) : String :=
  String.mk (pySuffixAux name.data)

/-- The record built for a located artifact file. -/
def recordFor (H : List Nat → String) (version : String) (f : File) : ArtifactRecord :=
  { url := "https://github.com/Codeenk/airdb/releases/download/v" ++ version ++ "/" ++ f.name
    sha256 := calculate_sha256 H f.content
    size := f.content.length
    filename := f.name }

/-- `bundle_dir.glob("**/" + nm)`: the files of the tree whose base name is
`nm`, in glob order. -/
def globPattern (fs : List File) (nm : String) : List File :=
  fs.filter (fun f => f.name == nm)

/-- One iteration of the outer pattern loop for one platform:
`for file in bundle_dir.glob(pattern): if <suffix accepted>: artifacts[platform] = {...}; break`.
The `break` sits inside the `if`, so the inner loop records the first glob
match with an accepted suffix and then stops scanning this pattern's
matches; the outer loop continues with the next pattern regardless. -/
def scanPattern (H : List Nat → String) (version platform : String)
    (accept : String → Bool) (fs : List File) (arts : Dict) (nm : String) : Dict :=
  match (globPattern fs nm).find? (fun f => accept (pySuffix f.name)) with
  | some f => dictInsert arts platform (recordFor H version f)
  | none => arts

/-- `linux_patterns` (base names; see the glob modelling note above). -/
def linux_patterns (version : String) : List String :=
  ["airdb_" ++ version ++ "_amd64.AppImage",
   "airdb_" ++ version ++ "_amd64.deb"]

/-- `windows_patterns`. -/
def windows_patterns (version : String) : List String :=
  ["airdb_" ++ version ++ "_x64-setup.exe",
   "airdb_" ++ version ++ "_x64_en-US.msi"]

/-- `macos_patterns`. -/
def macos_patterns (version : String) : List String :=
  ["airdb_" ++ version ++ "_x64.dmg",
   "airdb_" ++ version ++ "_aarch64.dmg"]

/-- `find_artifacts(bundle_dir, version)`: the three per-platform pattern
loops over `artifacts = {}`.  Suffix guards as in the source:
linux `== ".AppImage"`, windows `in [".exe", ".msi"]`, macos `== ".dmg"`. -/
def find_artifacts (H : List Nat → String) (fs : List File) (version : String) : Dict :=
  let a1 := (linux_patterns version).foldl
    (scanPattern H version "linux" (fun s => s == ".AppImage") fs) []
  let a2 := (windows_patterns version).foldl
    (scanPattern H version "windows" (fun s => s == ".exe" || s == ".msi") fs) a1
  (macos_patterns version).foldl
    (scanPattern H version "macos" (fun s => s == ".dmg") fs) a2

/-- The manifest document (`generate_manifest`'s returned dict; its seven
top-level keys are the fields of this structure, so every manifest carries
all of them by construction). -/
structure Manifest where
  version : String
  channel : String
  release_date : String
  min_supported_version : String
  changelog : List String
  artifacts : Dict
  signature : String
deriving Repr, DecidableEq

/-- `changelog or []` on an optional list argument: `None` and the empty
list (both falsy) give `[]`; any non-empty list is returned itself. -/
def pyOrEmpty (x : Option (List String)) : List String :=
  match x with
  | none => []
  | some l => if l.isEmpty then [] else l

/-- The artifacts field: `{}` initially, replaced by `find_artifacts`'s
result when `bundle_dir and bundle_dir.exists()` (a `Path` is always
truthy, so the test is: supplied and existing). -/
def bundleArtifacts (H : List Nat → String) (version : String)
    (bundle_dir : Option Dir) : Dict :=
  match bundle_dir with
  | some d => if d.dirExists then find_artifacts H d.files version else []
  | none => []

/-- `generate_manifest(version, channel, min_version, changelog, bundle_dir)`;
`today` stands for `datetime.utcnow().strftime("%Y-%m-%d")`. -/
def generate_manifest (H : List Nat → String) (version channel min_version : String)
    (changelog : Option (List String)) (bundle_dir : Option Dir)
    (today : String) : Manifest :=
  { version := version
    channel := channel
    release_date := today
    min_supported_version := min_version
    changelog := pyOrEmpty changelog
    artifacts := bundleArtifacts H version bundle_dir
    signature := "" }

/-- `main()`: argparse makes `--version` required (absent → usage error,
non-zero exit, no file written) and supplies the defaults
`--channel stable`, `--min-version 0.1.0`, `--changelog None`,
`--bundle-dir None`; on success the generated manifest is written out. -/
def mainModel (H : List Nat → String) (version : Option String)
    (channel min_version : Option String) (changelog : Option (List String))
    (bundle_dir : Option Dir) (today : String) : Except String Manifest :=
  match version with
  | none => Except.error "the following arguments are required: --version"
  | some v =>
      Except.ok (generate_manifest H v (channel.getD "stable")
        (min_version.getD "0.1.0") changelog bundle_dir today)

/-! ### Dictionary lemmas -/

theorem lookup_cons_eq_if (k' k0 : String) (v0 : ArtifactRecord) (rest : Dict) :
    List.lookup k' ((k0, v0) :: rest) = if k' = k0 then some v0 else rest.lookup k' := by
  by_cases h : k' = k0
  · subst h
    simp [List.lookup]
  · have hb : (k' == k0) = false := beq_eq_false_iff_ne.mpr h
    simp [List.lookup, hb, h]

theorem lookup_dictInsert (d : Dict) (k : String) (v : ArtifactRecord) (k' : String) :
    (dictInsert d k v).lookup k' = if k' = k then some v else d.lookup k' := by
  induction d with
  | nil =>
    show List.lookup k' [(k, v)] = _
    rw [lookup_cons_eq_if]
  | cons p rest ih =>
    obtain ⟨k0, v0⟩ := p
    by_cases h0 : k0 = k
    · subst h0
      by_cases h : k' = k0 <;> simp [dictInsert, lookup_cons_eq_if, h]
    · by_cases h : k' = k0
      · subst h
        simp [dictInsert, h0, lookup_cons_eq_if, Ne.symm h0]
      · simp [dictInsert, h0, lookup_cons_eq_if, h, ih]

theorem mem_keys_dictInsert (d : Dict) (k : String) (v : ArtifactRecord) (x : String)
    (hx : x ∈ (dictInsert d k v).map Prod.fst) : x = k ∨ x ∈ d.map Prod.fst := by
  induction d with
  | nil => simpa [dictInsert] using hx
  | cons p rest ih =>
    obtain ⟨k0, v0⟩ := p
    by_cases h0 : k0 = k
    · subst h0
      simpa [dictInsert] using hx
    · simp only [dictInsert, if_neg h0, List.map_cons, List.mem_cons] at hx
      rcases hx with h | h
      · exact Or.inr (by simp [h])
      · rcases ih h with h' | h'
        · exact Or.inl h'
        · exact Or.inr (by simp [h'])

/-! ### `scanPattern` lemmas -/

theorem lookup_scanPattern_ne (H : List Nat → String) (version platform : String)
    (accept : String → Bool) (fs : List File) (arts : Dict) (nm : String)
    (k : String) (hk : k ≠ platform) :
    (scanPattern H version platform accept fs arts nm).lookup k = arts.lookup k := by
  unfold scanPattern
  cases (globPattern fs nm).find? (fun f => accept (pySuffix f.name)) with
  | none => rfl
  | some f => simp [lookup_dictInsert, hk]

theorem lookup_scanPattern_cases (H : List Nat → String) (version platform : String)
    (accept : String → Bool) (fs : List File) (arts : Dict) (nm : String)
    (k : String) (r : ArtifactRecord)
    (h : (scanPattern H version platform accept fs arts nm).lookup k = some r) :
    (∃ f, f ∈ fs ∧ r = recordFor H version f) ∨ arts.lookup k = some r := by
  unfold scanPattern at h
  cases hf : (globPattern fs nm).find? (fun f => accept (pySuffix f.name)) with
  | none => rw [hf] at h; exact Or.inr h
  | some f =>
    rw [hf] at h
    rw [lookup_dictInsert] at h
    split at h
    · refine Or.inl ⟨f, ?_, (Option.some_inj.mp h).symm⟩
      have hmem := List.mem_of_find?_eq_some hf
      exact (List.mem_filter.mp hmem).1
    · exact Or.inr h

theorem mem_keys_scanPattern (H : List Nat → String) (version platform : String)
    (accept : String → Bool) (fs : List File) (arts : Dict) (nm : String)
    (x : String) (hx : x ∈ (scanPattern H version platform accept fs arts nm).map Prod.fst) :
    x = platform ∨ x ∈ arts.map Prod.fst := by
  unfold scanPattern at hx
  cases hf : (globPattern fs nm).find? (fun f => accept (pySuffix f.name)) with
  | none => rw [hf] at hx; exact Or.inr hx
  | some f =>
    rw [hf] at hx
    exact mem_keys_dictInsert _ _ _ _ hx

/-! ### `find_artifacts` lemmas -/

/-- Every record in the Locator's result is `recordFor` of some file of the
bundle tree. -/
theorem find_artifacts_lookup (H : List Nat → String) (fs : List File)
    (version k : String) (r : ArtifactRecord)
    (h : (find_artifacts H fs version).lookup k = some r) :
    ∃ f, f ∈ fs ∧ r = recordFor H version f := by
  unfold find_artifacts linux_patterns windows_patterns macos_patterns at h
  simp only [List.foldl] at h
  rcases lookup_scanPattern_cases _ _ _ _ _ _ _ _ _ h with h' | h
  · exact h'
  rcases lookup_scanPattern_cases _ _ _ _ _ _ _ _ _ h with h' | h
  · exact h'
  rcases lookup_scanPattern_cases _ _ _ _ _ _ _ _ _ h with h' | h
  · exact h'
  rcases lookup_scanPattern_cases _ _ _ _ _ _ _ _ _ h with h' | h
  · exact h'
  rcases lookup_scanPattern_cases _ _ _ _ _ _ _ _ _ h with h' | h
  · exact h'
  rcases lookup_scanPattern_cases _ _ _ _ _ _ _ _ _ h with h' | h
  · exact h'
  simp [List.lookup] at h

/-- Every key of the Locator's result is one of the three platforms. -/
theorem mem_keys_find_artifacts (H : List Nat → String) (fs : List File)
    (version x : String) (hx : x ∈ (find_artifacts H fs version).map Prod.fst) :
    x = "linux" ∨ x = "windows" ∨ x = "macos" := by
  unfold find_artifacts linux_patterns windows_patterns macos_patterns at hx
  simp only [List.foldl] at hx
  rcases mem_keys_scanPattern _ _ _ _ _ _ _ _ hx with h | hx
  · exact Or.inr (Or.inr h)
  rcases mem_keys_scanPattern _ _ _ _ _ _ _ _ hx with h | hx
  · exact Or.inr (Or.inr h)
  rcases mem_keys_scanPattern _ _ _ _ _ _ _ _ hx with h | hx
  · exact Or.inr (Or.inl h)
  rcases mem_keys_scanPattern _ _ _ _ _ _ _ _ hx with h | hx
  · exact Or.inr (Or.inl h)
  rcases mem_keys_scanPattern _ _ _ _ _ _ _ _ hx with h | hx
  · exact Or.inl h
  rcases mem_keys_scanPattern _ _ _ _ _ _ _ _ hx with h | hx
  · exact Or.inl h
  simp at hx

/-! ### Chunked-reading lemmas -/

theorem readIterAux_join (c : Nat) (hc : 0 < c) :
    ∀ (fuel : Nat) (l : List Nat), l.length ≤ fuel → (readIterAux c fuel l).flatten = l := by
  intro fuel
  induction fuel with
  | zero =>
    intro l hl
    cases l with
    | nil => rfl
    | cons b rest => simp at hl
  | succ n ih =>
    intro l hl
    cases l with
    | nil => rfl
    | cons b rest =>
      have hc0 : c ≠ 0 := Nat.pos_iff_ne_zero.mp hc
      simp only [readIterAux, if_neg hc0, List.flatten_cons]
      rw [ih ((b :: rest).drop c) (by simp only [List.length_drop]; simp at hl ⊢; omega)]
      exact List.take_append_drop c (b :: rest)

theorem foldl_append_eq_append_join (L : List (List Nat)) :
    ∀ init : List Nat, L.foldl (fun acc chunk => acc ++ chunk) init = init ++ L.flatten := by
  induction L with
  | nil => intro init; simp
  | cons a L ih => intro init; simp [ih, List.append_assoc]

/-- Incremental hashing over chunks equals the digest of the full content,
for every positive chunk size. -/
theorem calculate_sha256_chunked_eq (H : List Nat → String) (c : Nat) (hc : 0 < c)
    (content : List Nat) : calculate_sha256_chunked H c content = H content := by
  unfold calculate_sha256_chunked readIter
  rw [foldl_append_eq_append_join, List.nil_append,
    readIterAux_join c hc content.length content (Nat.le_refl _)]

/-! ### `pySuffix` lemmas -/

theorem rfindDot_append (l1 l2 : List Char) :
    rfindDot (l1 ++ l2) =
      match rfindDot l2 with
      | some i => some (l1.length + i)
      | none => rfindDot l1 := by
  induction l1 with
  | nil =>
    cases h2 : rfindDot l2 with
    | none => simp [h2, rfindDot]
    | some i => simp [h2]
  | cons c cs ih =>
    show rfindDot (c :: (cs ++ l2)) = _
    cases h2 : rfindDot l2 with
    | none =>
      simp only [rfindDot, ih, h2]
    | some i =>
      simp only [rfindDot, ih, h2]
      have : cs.length + i + 1 = (c :: cs).length + i := by
        simp [List.length_cons]; omega
      simp [this]

theorem pySuffixAux_append (l1 l2 : List Char) (h1 : l1 ≠ [])
    (h0 : rfindDot l2 = some 0) (hl : 2 ≤ l2.length) :
    pySuffixAux (l1 ++ l2) = l2 := by
  have hr : rfindDot (l1 ++ l2) = some l1.length := by
    rw [rfindDot_append, h0]
    simp
  have h1len : 0 < l1.length := List.length_pos.mpr h1
  have hlt : l1.length < (l1 ++ l2).length - 1 := by
    simp only [List.length_append]; omega
  unfold pySuffixAux
  rw [hr]
  show (if 0 < l1.length ∧ l1.length < (l1 ++ l2).length - 1
      then (l1 ++ l2).drop l1.length else []) = l2
  rw [if_pos (⟨h1len, hlt⟩ : 0 < l1.length ∧ l1.length < (l1 ++ l2).length - 1)]
  exact List.drop_left l1 l2

theorem string_data_append (s t : String) : (s ++ t).data = s.data ++ t.data := rfl

/-- The file name every windows `.msi` pattern match carries has pathlib
suffix `".msi"`, whatever the version string is. -/
theorem pySuffix_msi (v : String) :
    pySuffix ("airdb_" ++ v ++ "_x64_en-US.msi") = ".msi" := by
  have hdata : ("airdb_" ++ v ++ "_x64_en-US.msi").data
      = ("airdb_".data ++ v.data ++ "_x64_en-US".data) ++ ".msi".data := by
    rw [string_data_append, string_data_append,
      show "_x64_en-US.msi".data = "_x64_en-US".data ++ ".msi".data from rfl]
    simp [List.append_assoc]
  have h1 : "airdb_".data ++ v.data ++ "_x64_en-US".data ≠ [] := by simp
  have h0 : rfindDot ".msi".data = some 0 := by decide
  have hl : 2 ≤ ".msi".data.length := by decide
  unfold pySuffix
  rw [hdata, pySuffixAux_append _ _ h1 h0 hl]

/-- `find?` returns the head when the predicate holds everywhere. -/
theorem find?_eq_head? {α : Type} (p : α → Bool) (l : List α)
    (h : ∀ x ∈ l, p x = true) : l.find? p = l.head? := by
  cases l with
  | nil => rfl
  | cons a t => rw [List.find?_cons_of_pos _ (h a (by simp))]; rfl

theorem mem_globPattern (fs : List File) (nm : String) (f : File)
    (h : f ∈ globPattern fs nm) : f ∈ fs ∧ f.name = nm := by
  have := List.mem_filter.mp h
  exact ⟨this.1, by simpa using this.2⟩

/-- Lookup of a platform just scanned, when every glob match has an accepted
suffix: the first glob match is recorded. -/
theorem lookup_scanPattern_head (H : List Nat → String) (version platform : String)
    (accept : String → Bool) (fs : List File) (arts : Dict) (nm : String) (f : File)
    (hacc : ∀ x ∈ globPattern fs nm, accept (pySuffix x.name) = true)
    (hf : (globPattern fs nm).head? = some f) :
    (scanPattern H version platform accept fs arts nm).lookup platform
      = some (recordFor H version f) := by
  unfold scanPattern
  rw [find?_eq_head? _ _ hacc, hf, lookup_dictInsert, if_pos rfl]

/-! ### Concrete inputs used by counterexamples and witnesses -/

/-- A concrete stand-in digest function used to instantiate `H`. -/
def Hdemo : List Nat → String := fun l => "digest" ++ toString l.length

def exeFile : File := ⟨"airdb_1.2.0_x64-setup.exe", [1, 2, 3]⟩

def msiFile : File := ⟨"airdb_1.2.0_x64_en-US.msi", [4, 5]⟩

def appImageFile : File := ⟨"airdb_1.2.0_amd64.AppImage", [9, 9, 9]⟩

def debFile : File := ⟨"airdb_1.2.0_amd64.deb", [0, 1]⟩

/-! ### Claims -/

/-- Claim C1, counterexample: a bundle holding both the windows
installer-image file (`setup.exe`, first pattern) and the package file
(`.msi`, second pattern) for version 1.2.0 ends up with the `.msi` — the
later pattern's file — recorded as the windows artifact, refuting "the
recorded artifact is the one matching the higher-priority (earlier)
pattern, never a later pattern's file". -/
theorem C1_counterexample :
    exeFile ∈ [exeFile, msiFile]
    ∧ ((find_artifacts Hdemo [exeFile, msiFile] "1.2.0").lookup "windows").map
        ArtifactRecord.filename = some "airdb_1.2.0_x64_en-US.msi" := by
  decide

/-- Claim C1, amended: the `break` stops only the scan of the current
pattern's glob matches; the Locator goes on to later patterns, whose
accepted matches overwrite the earlier record, so the recorded artifact is
the one matching the LAST pattern with an accepted match (within one
pattern, the first glob match wins).  Concretely for windows: whenever the
bundle contains a file matching the second (`.msi`) pattern, the recorded
windows artifact is the first such file, whether or not a `setup.exe`
matching the first pattern is present. -/
theorem C1_thm (H : List Nat → String) (fs : List File) (v : String) (f : File)
    (hf : (globPattern fs ("airdb_" ++ v ++ "_x64_en-US.msi")).head? = some f) :
    (find_artifacts H fs v).lookup "windows" = some (recordFor H v f) := by
  unfold find_artifacts windows_patterns macos_patterns
  simp only [List.foldl]
  rw [lookup_scanPattern_ne _ _ _ _ _ _ _ _ (show "windows" ≠ "macos" by decide)]
  rw [lookup_scanPattern_ne _ _ _ _ _ _ _ _ (show "windows" ≠ "macos" by decide)]
  refine lookup_scanPattern_head H v "windows" _ fs _ _ f ?_ hf
  intro x hx
  show (pySuffix x.name == ".exe" || pySuffix x.name == ".msi") = true
  rw [(mem_globPattern _ _ _ hx).2, pySuffix_msi]
  decide

/-- Claim C1, witness for the amended theorem at a concrete bundle. -/
theorem C1_witness :
    (globPattern [exeFile, msiFile] ("airdb_" ++ "1.2.0" ++ "_x64_en-US.msi")).head?
      = some msiFile
    ∧ (find_artifacts Hdemo [exeFile, msiFile] "1.2.0").lookup "windows"
      = some (recordFor Hdemo "1.2.0" msiFile) :=
  ⟨by decide, C1_thm Hdemo [exeFile, msiFile] "1.2.0" msiFile (by decide)⟩

/-- Claim C2: evaluation at the failing input.  A bundle holding only the
linux package file `airdb_1.2.0_amd64.deb` — which does match the second
configured linux pattern (first conjunct) — yields NO linux entry, because
the linux suffix guard accepts only `".AppImage"` and so rejects every
match of the `.deb` pattern. -/
theorem C2_thm :
    globPattern [debFile] ("airdb_" ++ "1.2.0" ++ "_amd64.deb") = [debFile]
    ∧ (find_artifacts Hdemo [debFile] "1.2.0").lookup "linux" = none := by
  decide

/-- Claim C3, counterexample: an invocation whose `--version` argument is
present but equal to the empty string is NOT rejected — a manifest is
produced, and its version field is the empty string. -/
theorem C3_counterexample :
    (mainModel Hdemo (some "") none none none none "2026-10-12").toOption.map
      Manifest.version = some "" := rfl

/-- Claim C3, amended: a MISSING version is a usage error rejected before
assembly begins (non-zero exit, no manifest produced); an EMPTY version
string, however, is accepted, and the Assembler returns a manifest whose
version field is that (possibly empty) string. -/
theorem C3_thm (H : List Nat → String) (c mv : Option String)
    (l : Option (List String)) (b : Option Dir) (d : String) :
    (mainModel H none c mv l b d).toOption = none
    ∧ ∀ v : String,
        (mainModel H (some v) c mv l b d).toOption.map Manifest.version = some v :=
  ⟨rfl, fun _ => rfl⟩

/-- Claim C4: every produced manifest carries all seven required top-level
fields by construction of the `Manifest` structure; its `signature` is
always the empty string; and `artifacts` is always a mapping whose keys are
drawn only from linux, windows, macos. -/
theorem C4_thm (H : List Nat → String) (v c mv : String) (l : Option (List String))
    (b : Option Dir) (d : String) :
    (generate_manifest H v c mv l b d).signature = ""
    ∧ ((generate_manifest H v c mv l b d).artifacts.map Prod.fst).all
        (fun k => k == "linux" || k == "windows" || k == "macos") = true := by
  refine ⟨rfl, ?_⟩
  rw [List.all_eq_true]
  intro k hk
  have hkey : k = "linux" ∨ k = "windows" ∨ k = "macos" := by
    simp only [generate_manifest] at hk
    cases b with
    | none => simp [bundleArtifacts] at hk
    | some dir =>
      simp only [bundleArtifacts] at hk
      by_cases hex : dir.dirExists
      · rw [if_pos hex] at hk
        exact mem_keys_find_artifacts _ _ _ _ hk
      · rw [if_neg hex] at hk
        simp at hk
  rcases hkey with h | h | h <;> simp [h]

/-- Claim C5: the checksum is chunk-size independent — incrementally
hashing the fixed-size chunks the read loop yields equals the digest of the
full content for every positive chunk size — and every ArtifactRecord the
Locator returns carries the digest of the recorded file's full content and
that file's byte length as `size`. -/
theorem C5_thm (H : List Nat → String) :
    (∀ (c : Nat) (content : List Nat), 0 < c →
        calculate_sha256_chunked H c content = H content)
    ∧ ∀ (fs : List File) (v p : String) (r : ArtifactRecord),
        (find_artifacts H fs v).lookup p = some r →
        ∃ f, f ∈ fs ∧ r.sha256 = H f.content ∧ r.size = f.content.length := by
  constructor
  · intro c content hc
    exact calculate_sha256_chunked_eq H c hc content
  · intro fs v p r h
    obtain ⟨f, hmem, rfl⟩ := find_artifacts_lookup H fs v p r h
    refine ⟨f, hmem, ?_, rfl⟩
    show calculate_sha256 H f.content = H f.content
    exact calculate_sha256_chunked_eq H 4096 (by norm_num) f.content

/-- Claim C5, witness: chunk size 1 on a two-byte content, and the record
the Locator builds for a concrete AppImage bundle. -/
theorem C5_witness :
    calculate_sha256_chunked Hdemo 1 [7, 8] = Hdemo [7, 8]
    ∧ ∃ f, f ∈ [appImageFile]
        ∧ (recordFor Hdemo "1.2.0" appImageFile).sha256 = Hdemo f.content
        ∧ (recordFor Hdemo "1.2.0" appImageFile).size = f.content.length :=
  ⟨(C5_thm Hdemo).1 1 [7, 8] (by decide),
   (C5_thm Hdemo).2 [appImageFile] "1.2.0" "linux"
     (recordFor Hdemo "1.2.0" appImageFile) (by decide)⟩

/-- Claim C6: when no bundle directory is supplied, or the supplied bundle
directory does not exist, the manifest's artifacts field is the empty
mapping and generation still succeeds. -/
theorem C6_thm (H : List Nat → String) (v : String) (c mv : Option String)
    (l : Option (List String)) (files : List File) (d : String) :
    (mainModel H (some v) c mv l none d).toOption.map Manifest.artifacts = some []
    ∧ (mainModel H (some v) c mv l (some ⟨false, files⟩) d).toOption.map
        Manifest.artifacts = some [] :=
  ⟨rfl, rfl⟩

/-- Claim C7: every ArtifactRecord's url is exactly the fixed repository
base followed by `/v<version>/<filename>` with the record's own filename
substituted — pure string formatting, ending in the filename field. -/
theorem C7_thm (H : List Nat → String) (fs : List File) (v p : String)
    (r : ArtifactRecord) (h : (find_artifacts H fs v).lookup p = some r) :
    r.url = "https://github.com/Codeenk/airdb/releases/download/v" ++ v ++ "/"
      ++ r.filename := by
  obtain ⟨f, _, rfl⟩ := find_artifacts_lookup H fs v p r h
  rfl

/-- Claim C7, witness at a concrete AppImage bundle. -/
theorem C7_witness :
    (recordFor Hdemo "1.2.0" appImageFile).url
      = "https://github.com/Codeenk/airdb/releases/download/v" ++ "1.2.0" ++ "/"
        ++ (recordFor Hdemo "1.2.0" appImageFile).filename :=
  C7_thm Hdemo [appImageFile] "1.2.0" "linux"
    (recordFor Hdemo "1.2.0" appImageFile) (by decide)

/-- Claim C8: two invocations with identical inputs (same digest function,
version, channel, min_version, changelog, bundle directory) agree on the
artifacts, version, channel, min_supported_version and changelog fields,
whatever the two wall-clock dates are. -/
theorem C8_thm (H : List Nat → String) (v c mv : String) (l : Option (List String))
    (b : Option Dir) (d1 d2 : String) :
    (generate_manifest H v c mv l b d1).artifacts
        = (generate_manifest H v c mv l b d2).artifacts
    ∧ (generate_manifest H v c mv l b d1).version
        = (generate_manifest H v c mv l b d2).version
    ∧ (generate_manifest H v c mv l b d1).channel
        = (generate_manifest H v c mv l b d2).channel
    ∧ (generate_manifest H v c mv l b d1).min_supported_version
        = (generate_manifest H v c mv l b d2).min_supported_version
    ∧ (generate_manifest H v c mv l b d1).changelog
        = (generate_manifest H v c mv l b d2).changelog :=
  ⟨rfl, rfl, rfl, rfl, rfl⟩

/-- Claim C9: an invocation supplying only a version gets the documented
defaults — channel "stable", min_supported_version "0.1.0", empty
changelog — and supplied optional inputs are adopted as given. -/
theorem C9_thm (H : List Nat → String) (v d : String) :
    (mainModel H (some v) none none none none d).toOption.map
        (fun m => (m.channel, m.min_supported_version, m.changelog))
      = some ("stable", "0.1.0", [])
    ∧ ∀ (c mv : String) (l : List String) (b : Option Dir),
        (mainModel H (some v) (some c) (some mv) (some l) b d).toOption.map
            (fun m => (m.channel, m.min_supported_version, m.changelog))
          = some (c, mv, l) := by
  constructor
  · rfl
  · intro c mv l b
    cases l with
    | nil => rfl
    | cons a t => rfl

/-- Claim C10: every falsy changelog argument becomes the empty list — an
explicitly empty list yields a manifest identical to the one produced when
the changelog is omitted — and a supplied changelog is adopted unchanged
and in order. -/
theorem C10_thm (H : List Nat → String) (v c mv : String) (b : Option Dir)
    (d : String) :
    generate_manifest H v c mv (some []) b d = generate_manifest H v c mv none b d
    ∧ ∀ l : List String, (generate_manifest H v c mv (some l) b d).changelog = l := by
  refine ⟨rfl, fun l => ?_⟩
  cases l with
  | nil => rfl
  | cons a t => rfl

end AirDB
